import Mathlib

/-!
Shallow embedding of the query compilation engine of b4fun/sqlite-rest
(src/server.go and the error definitions in src/unnamed/part_004).

Go functions are translated into executable Lean definitions.  Machine
integers (int64) are modelled as Int with explicit range checks where the
source checks them (strconv.ParseInt).  Fallible Go code returns a GoRes
value; a Go runtime panic (index out of range, strings.Repeat with a
negative count) is modelled by the GoRes.panic constructor.

The iteration order of a Go map (url.Values) is not determined by the map
value itself: range over a map enumerates keys in an arbitrary order that
can change between two runs on the identical request.  Functions that
iterate the query-parameter map therefore take the enumeration order as an
explicit argument (a permutation of the parameter keys).
-/

/-- Result of running a piece of Go code: a runtime panic, a returned
error value, or a normal result. -/
inductive GoRes (ε : Type) (α : Type) where
  | panic (msg : String)
  | err (e : ε)
  | ok (a : α)

/-- Sequencing of Go statements: a panic or an early error return
short-circuits. -/
def GoRes.bind {ε α β : Type} : GoRes ε α → (α → GoRes ε β) → GoRes ε β
  | .panic m, _ => .panic m
  | .err e, _ => .err e
  | .ok a, f => f a

/-- Error taxonomy of the compiler, from src/unnamed/part_004 (ServerError
values) plus the plain Go errors that escape the compiler: json decode
errors, the order-clause format error, and strconv.ParseInt errors. -/
inductive CompileErr where
  | badRequest (hint : String)
  | unsupportedMediaType
  | unsupportedOperator (op : String)
  | jsonDecode
  | formatError (clause : String)
  | parseIntError (s : String)
deriving Repr, DecidableEq

/-- Internal error of the pagination resolver: the errNoLimitOffset
sentinel, or a strconv.ParseInt failure carrying the offending text. -/
inductive LoErr where
  | noLimitOffset
  | parseIntError (s : String)
deriving Repr, DecidableEq

/- ---------------------------------------------------------------------
Go standard library string helpers, modelled on lists of characters so
that every definition is structural and kernel-evaluable.
--------------------------------------------------------------------- -/

/-- Split a character list at the first occurrence of the separator
character; none when the separator does not occur. -/
def breakAtChar (sep : Char) : List Char → Option (List Char × List Char)
  | [] => none
  | x :: xs =>
    if x = sep then some ([], xs)
    else (breakAtChar sep xs).map fun p => (x :: p.1, p.2)

/-- Model of strings.SplitN(s, sep, 2) for a one-character separator:
either [s] (separator absent) or the two pieces around its first
occurrence. -/
def goSplitN2 (s : String) (sep : Char) : List String :=
  match breakAtChar sep s.data with
  | none => [s]
  | some (a, b) => [String.mk a, String.mk b]

/-- Full split of a character list on a separator character. -/
def splitCharsFull (sep : Char) : List Char → List (List Char)
  | [] => [[]]
  | x :: xs =>
    if x = sep then [] :: splitCharsFull sep xs
    else
      match splitCharsFull sep xs with
      | [] => [[x]]
      | g :: gs => (x :: g) :: gs

/-- Model of strings.Split(s, sep) for a one-character separator. -/
def splitOnChar (sep : Char) (s : String) : List String :=
  (splitCharsFull sep s.data).map String.mk

/-- Model of strings.TrimPrefix. -/
def goTrimPre (s p : String) : String :=
  if s.data.take p.data.length = p.data then String.mk (s.data.drop p.data.length) else s

/-- Model of strings.TrimSuffix. -/
def goTrimSuf (s p : String) : String :=
  if s.data.reverse.take p.data.length = p.data.reverse then
    String.mk ((s.data.reverse.drop p.data.length).reverse)
  else s

/-- Model of strings.Repeat; Go panics when the count is negative. -/
def goRepeat (s : String) (count : Int) : Option String :=
  if count < 0 then none
  else some (String.join (List.replicate count.toNat s))

/-- Model of strings.ToLower, restricted to ASCII letters (all strings
compared by the compiler are ASCII). -/
def goToLower (s : String) : String :=
  String.mk (s.data.map Char.toLower)

/-- Whitespace recognised by strings.TrimSpace (ASCII subset of
unicode.IsSpace). -/
def isGoSpace (c : Char) : Bool :=
  c = ' ' || c = '\t' || c = '\n' || c = '\x0b' || c = '\x0c' || c = '\r'

/-- Model of strings.TrimSpace, restricted to ASCII whitespace. -/
def goTrimSpace (s : String) : String :=
  String.mk (((s.data.dropWhile isGoSpace).reverse.dropWhile isGoSpace).reverse)

/-- Decimal digits of a character list folded into a Nat; none when the
list is empty or holds a non-digit. -/
def digitsVal : List Char → Option Nat
  | [] => none
  | cs =>
    if cs.all Char.isDigit then
      some (cs.foldl (fun acc c => acc * 10 + (c.toNat - '0'.toNat)) 0)
    else none

/-- Model of strconv.ParseInt(s, 10, 64): optional sign, decimal digits,
and an int64 range check; none models a returned strconv error. -/
def parseInt64 (s : String) : Option Int :=
  let signed : Option Int :=
    match s.data with
    | '+' :: rest => (digitsVal rest).map fun n => (n : Int)
    | '-' :: rest => (digitsVal rest).map fun n => -(n : Int)
    | cs => (digitsVal cs).map fun n => (n : Int)
  signed.bind fun v =>
    if -(2 ^ 63) ≤ v ∧ v < 2 ^ 63 then some v else none

/-- Rendering of an int64 by fmt with the %d verb. -/
def intToStr (n : Int) : String := toString n

/- ---------------------------------------------------------------------
JSON values and a model of encoding/json decoding.

The compiler hands user text to json.Unmarshal in two places: the body
payload and the rewritten `in`-list.  The model below implements the JSON
grammar for null, booleans, integer numbers, strings with the common
escapes, arrays and objects.  Non-integer numbers (fractions, exponents)
and \u escapes are outside the model and parse to none; no claim touches
them.
--------------------------------------------------------------------- -/

/-- A decoded JSON value (Go interface{} holding json.Unmarshal output). -/
inductive JVal where
  | null
  | bool (b : Bool)
  | num (n : Int)
  | str (s : String)
  | arr (xs : List JVal)
  | obj (fs : List (String × JVal))

/-- JSON whitespace skipping (space, tab, newline, carriage return). -/
def skipWs : List Char → List Char
  | c :: rest =>
    if c = ' ' || c = '\t' || c = '\n' || c = '\r' then skipWs rest
    else c :: rest
  | [] => []

/-- String body of a JSON string literal, after the opening quote;
handles the escapes \" \\ \/ \n \t \r \b \f. -/
def parseJStringAux (acc : List Char) : List Char → Option (String × List Char)
  | [] => none
  | '\\' :: e :: rest =>
    (match e with
     | '"' => some '"'
     | '\\' => some '\\'
     | '/' => some '/'
     | 'n' => some '\n'
     | 't' => some '\t'
     | 'r' => some '\r'
     | 'b' => some '\x08'
     | 'f' => some '\x0c'
     | _ => none).bind
      fun c => parseJStringAux (c :: acc) rest
  | '"' :: rest => some (String.mk acc.reverse, rest)
  | c :: rest => parseJStringAux (c :: acc) rest

/-- Leading run of decimal digits of a character list. -/
def takeDigits : List Char → (List Char × List Char)
  | [] => ([], [])
  | c :: rest =>
    if c.isDigit then
      let p := takeDigits rest
      (c :: p.1, p.2)
    else ([], c :: rest)

/-- JSON number (integers only; a following fraction dot or exponent
letter makes the literal fall outside the model). -/
def parseJNumber (cs : List Char) : Option (JVal × List Char) :=
  let core : List Char → Option (Nat × List Char) := fun ds =>
    match takeDigits ds with
    | ([], _) => none
    | (d :: dtl, rest) =>
      if d = '0' ∧ dtl ≠ [] then none
      else
        match rest with
        | r :: _ => if r = '.' || r = 'e' || r = 'E' then none else (digitsVal (d :: dtl)).map fun n => (n, rest)
        | [] => (digitsVal (d :: dtl)).map fun n => (n, rest)
  match cs with
  | '-' :: rest => (core rest).map fun p => (JVal.num (-(p.1 : Int)), p.2)
  | _ => (core cs).map fun p => (JVal.num (p.1 : Int), p.2)

/-- Mode of the recursive-descent JSON reader: a single value, an array
right after its opening bracket, the tail of an array after at least one
element, an object right after its opening brace, one object entry, or
the tail of an object. -/
inductive JMode where
  | val
  | arrStart
  | arrTail (acc : List JVal)
  | objStart
  | objEntry (acc : List (String × JVal))
  | objTail (acc : List (String × JVal))

/-- Fuel-indexed JSON reader.  Every recursive call decreases the fuel,
so the definition is structural and evaluates inside the kernel. -/
def parseJ : Nat → JMode → List Char → Option (JVal × List Char)
  | 0, _, _ => none
  | fuel + 1, .val, cs =>
    (match skipWs cs with
     | 'n' :: 'u' :: 'l' :: 'l' :: rest => some (JVal.null, rest)
     | 't' :: 'r' :: 'u' :: 'e' :: rest => some (JVal.bool true, rest)
     | 'f' :: 'a' :: 'l' :: 's' :: 'e' :: rest => some (JVal.bool false, rest)
     | '"' :: rest => (parseJStringAux [] rest).map fun p => (JVal.str p.1, p.2)
     | '[' :: rest => parseJ fuel .arrStart rest
     | '{' :: rest => parseJ fuel .objStart rest
     | c :: rest =>
       if c = '-' || c.isDigit then parseJNumber (c :: rest) else none
     | [] => none)
  | fuel + 1, .arrStart, cs =>
    (match skipWs cs with
     | ']' :: rest => some (JVal.arr [], rest)
     | other =>
       (parseJ fuel .val other).bind fun p =>
         parseJ fuel (.arrTail [p.1]) p.2)
  | fuel + 1, .arrTail acc, cs =>
    (match skipWs cs with
     | ']' :: rest => some (JVal.arr acc.reverse, rest)
     | ',' :: rest =>
       (parseJ fuel .val rest).bind fun p =>
         parseJ fuel (.arrTail (p.1 :: acc)) p.2
     | _ => none)
  | fuel + 1, .objStart, cs =>
    (match skipWs cs with
     | '}' :: rest => some (JVal.obj [], rest)
     | other => parseJ fuel (.objEntry []) other)
  | fuel + 1, .objEntry acc, cs =>
    (match skipWs cs with
     | '"' :: rest =>
       (parseJStringAux [] rest).bind fun kp =>
         match skipWs kp.2 with
         | ':' :: rest2 =>
           (parseJ fuel .val rest2).bind fun vp =>
             parseJ fuel (.objTail ((kp.1, vp.1) :: acc)) vp.2
         | _ => none
     | _ => none)
  | fuel + 1, .objTail acc, cs =>
    (match skipWs cs with
     | '}' :: rest => some (JVal.obj acc.reverse, rest)
     | ',' :: rest => parseJ fuel (.objEntry acc) rest
     | _ => none)

/-- Full JSON document: one value followed only by whitespace, as
json.Unmarshal requires.  The fuel bound is generous: the reader consumes
at least one character per three fuel steps. -/
def jsonParseTop (s : String) : Option JVal :=
  (parseJ (3 * s.data.length + 8) .val s.data).bind fun p =>
    if (skipWs p.2).isEmpty then some p.1 else none

/-- Model of json.Unmarshal(value, &ps) for ps of slice-of-interface
type: the document must be a JSON array (the compiler only passes
bracket-wrapped text here). -/
def jsonUnmarshalArr (s : String) : Option (List JVal) :=
  match jsonParseTop s with
  | some (JVal.arr xs) => some xs
  | _ => none

/- ---------------------------------------------------------------------
Request model.  src/server.go reads the routed request through
getQueryParameter(s) (url.Values lookups), Header.Get("range"),
Header.Get("Prefer"), Header.Get("content-type"), and the buffered body.
url.Values is a Go map; its entry list is carried here as an association
list whose lookups model the map lookups.  Header.Get is already resolved
into one field per header the compiler reads.
--------------------------------------------------------------------- -/

/-- One decoded JSON row: map[string]interface{} as the entry list in
parse order (for duplicate keys the later entry wins, as in a Go map). -/
def Row := List (String × JVal)

/-- Go map lookup on a row: the last write wins, hence the lookup on the
reversed entry list. -/
def rowLookup (r : Row) (k : String) : Option JVal :=
  List.lookup k r.reverse

/-- The request as the compiler sees it. -/
structure Request where
  queryParams : List (String × List String)
  rangeHeader : String
  preferHeader : String
  contentType : String
  body : String

/-- Model of c.getQueryParameter: first value under the name, else "". -/
def getQueryParameter (r : Request) (name : String) : String :=
  match List.lookup name r.queryParams with
  | some (v :: _) => v
  | _ => ""

/-- Model of c.getQueryParameters: every value under the name. -/
def getQueryParameters (r : Request) (name : String) : List String :=
  (List.lookup name r.queryParams).getD []

/-- Key enumeration of the query-parameter map in the order the entries
are stored; an actual Go run may enumerate them in any permutation of
this list. -/
def keyOrder (r : Request) : List String :=
  r.queryParams.map Prod.fst

/- ---------------------------------------------------------------------
Filter clause parsing (src/server.go lines 997-1071 and 715-792).
--------------------------------------------------------------------- -/

/-- One predicate fragment plus its bound values (CompiledQueryParameter). -/
structure CompiledQueryParameter where
  Expr : String
  Values : List JVal

/-- The compiled statement: SQL text plus ordered parameters. -/
structure CompiledQuery where
  Query : String
  Values : List JVal

/-- Builder for the unary comparison operators: the clause text carries
the SQL operator and one placeholder, the user text is the one bound
value (mapUserInputAsUnaryQuery). -/
def mapUserInputAsUnaryQuery (op : String) (column : String) (_userInput : String)
    (value : String) : GoRes CompileErr (List CompiledQueryParameter) :=
  .ok [⟨column ++ " " ++ op ++ " ?", [JVal.str value]⟩]

/-- Builder for the `in` operator (mapAsInQuery): strip surrounding
parens, wrap as a JSON array literal, json-decode; the placeholder text
uses strings.Repeat("?,", len-1), which panics in Go when the decoded
list is empty. -/
def mapAsInQuery (column : String) (_userInput : String) (value : String) :
    GoRes CompileErr (List CompiledQueryParameter) :=
  let v1 := goTrimPre value "("
  let v2 := goTrimSuf v1 ")"
  match jsonUnmarshalArr ("[" ++ v2 ++ "]") with
  | none => .err .jsonDecode
  | some ps =>
    match goRepeat "?," ((ps.length : Int) - 1) with
    | none => .panic "strings: negative Repeat count"
    | some rep => .ok [⟨column ++ " IN (" ++ rep ++ "?" ++ ")", ps⟩]

/-- Builder for the `is` operator (mapAsIsQuery): the value must
case-insensitively be null, false or true and binds the matching SQL
literal. -/
def mapAsIsQuery (column : String) (userInput : String) (value : String) :
    GoRes CompileErr (List CompiledQueryParameter) :=
  if goToLower value = "null" then .ok [⟨column ++ " IS ?", [JVal.null]⟩]
  else if goToLower value = "false" then .ok [⟨column ++ " IS ?", [JVal.bool false]⟩]
  else if goToLower value = "true" then .ok [⟨column ++ " IS ?", [JVal.bool true]⟩]
  else .err (.unsupportedOperator (userInput ++ "." ++ value))

/-- The fixed operator registry (queryOpereators, name kept verbatim). -/
def queryOpereators (op : String) :
    Option (String → String → String → GoRes CompileErr (List CompiledQueryParameter)) :=
  if op = "eq" then some (mapUserInputAsUnaryQuery "=")
  else if op = "gt" then some (mapUserInputAsUnaryQuery ">")
  else if op = "ge" then some (mapUserInputAsUnaryQuery ">=")
  else if op = "lt" then some (mapUserInputAsUnaryQuery "<")
  else if op = "le" then some (mapUserInputAsUnaryQuery "<=")
  else if op = "neq" then some (mapUserInputAsUnaryQuery "!=")
  else if op = "like" then some (mapUserInputAsUnaryQuery "LIKE")
  else if op = "ilike" then some (mapUserInputAsUnaryQuery "ILIKE")
  else if op = "in" then some mapAsInQuery
  else if op = "is" then some mapAsIsQuery
  else none

/-- Model of getQueryClausesByInput: empty raw text yields nothing; the
raw text splits once on the first dot; Go indexes ps[1] before checking
how many pieces the split produced, so raw text without a dot panics. -/
def getQueryClausesByInput (column s : String) :
    GoRes CompileErr (List CompiledQueryParameter) :=
  if s = "" then .ok []
  else
    match goSplitN2 s '.' with
    | [op, userInput] =>
      if op = "" ∨ userInput = "" then .err (.unsupportedOperator s)
      else
        match queryOpereators op with
        | some p => p column op userInput
        | none => .err (.unsupportedOperator s)
    | _ => .panic "runtime error: index out of range"

/-- Model of the loop body of getQueryClausesByColumn over the repeated
values of one column. -/
def getQueryClausesByInputList (column : String) :
    List String → GoRes CompileErr (List CompiledQueryParameter)
  | [] => .ok []
  | v :: rest =>
    (getQueryClausesByInput column v).bind fun ps =>
      (getQueryClausesByInputList column rest).bind fun more => .ok (ps ++ more)

/-- Model of getQueryClausesByColumn. -/
def getQueryClausesByColumn (r : Request) (column : String) :
    GoRes CompileErr (List CompiledQueryParameter) :=
  getQueryClausesByInputList column (getQueryParameters r column)

/-- Reserved query-parameter keys are not filterable columns
(isColumnName). -/
def isColumnName (s : String) : Bool :=
  !(goToLower s = "select" || goToLower s = "order" || goToLower s = "limit" ||
    goToLower s = "offset" || goToLower s = "on_conflict")

/-- Model of getQueryClauses: iterate the query-parameter map keys in the
order the Go runtime happens to enumerate them (the explicit first
argument), collecting clauses of every filterable column. -/
def getQueryClauses (r : Request) : List String → GoRes CompileErr (List CompiledQueryParameter)
  | [] => .ok []
  | k :: rest =>
    if isColumnName k then
      (getQueryClausesByColumn r k).bind fun vs =>
        (getQueryClauses r rest).bind fun more => .ok (vs ++ more)
    else getQueryClauses r rest

/- ---------------------------------------------------------------------
Order clauses and pagination (src/server.go lines 794-914).
--------------------------------------------------------------------- -/

/-- Translation of the nulls-ordering tokens (orderByNulls). -/
def orderByNulls (s : String) : String :=
  if s = "nullslast" then "nulls last"
  else if s = "nullsfirst" then "nulls first"
  else s

/-- Loop body of getOrderClauses over the comma-separated parts. -/
def orderClausesOfParts : List String → GoRes CompileErr (List String)
  | [] => .ok []
  | part :: rest =>
    match splitOnChar '.' part with
    | [a] => (orderClausesOfParts rest).bind fun more => .ok (a :: more)
    | [a, b] =>
      (orderClausesOfParts rest).bind fun more =>
        .ok ((a ++ " " ++ orderByNulls b) :: more)
    | [a, b, c] =>
      (orderClausesOfParts rest).bind fun more =>
        .ok ((a ++ " " ++ b ++ " " ++ orderByNulls c) :: more)
    | _ => .err (.formatError part)

/-- Model of getOrderClauses. -/
def getOrderClauses (r : Request) : GoRes CompileErr (List String) :=
  let v := getQueryParameter r "order"
  if v = "" then .ok []
  else orderClausesOfParts (splitOnChar ',' v)

/-- Model of getLimitOffsetFromHeader.  Go splits the Range value once on
the dash, parses the part before it, and then indexes ps[1]: a header
without a dash whose first piece parses as an integer panics. -/
def getLimitOffsetFromHeader (rangeValue : String) : GoRes LoErr (Int × Int) :=
  if rangeValue = "" then .err .noLimitOffset
  else
    match goSplitN2 rangeValue '-' with
    | [a, b] =>
      match parseInt64 a with
      | none => .err (.parseIntError a)
      | some off =>
        if b = "" then .ok (-1, off)
        else
          match parseInt64 b with
          | none => .err (.parseIntError b)
          | some toVal => .ok (toVal - off + 1, off)
    | [a] =>
      match parseInt64 a with
      | none => .err (.parseIntError a)
      | some _ => .panic "runtime error: index out of range"
    | _ => .err .noLimitOffset

/-- Model of getLimitOffsetFromQueryParameter: limit is required, offset
optional with default 0. -/
def getLimitOffsetFromQueryParameter (r : Request) : GoRes LoErr (Int × Int) :=
  let getInt64 : String → GoRes LoErr Int := fun qp =>
    let v := getQueryParameter r qp
    if v = "" then .err .noLimitOffset
    else
      match parseInt64 v with
      | some n => .ok n
      | none => .err (.parseIntError v)
  (getInt64 "limit").bind fun limit =>
    match getInt64 "offset" with
    | .ok offset => .ok (limit, offset)
    | .err .noLimitOffset => .ok (limit, 0)
    | .err e => .err e
    | .panic m => .panic m

/-- Model of getLimitOffset: the Range header takes precedence; only its
errNoLimitOffset sentinel falls back to the limit/offset parameters. -/
def getLimitOffset (r : Request) : GoRes LoErr (Int × Int) :=
  match getLimitOffsetFromHeader r.rangeHeader with
  | .ok lo => .ok lo
  | .panic m => .panic m
  | .err .noLimitOffset => getLimitOffsetFromQueryParameter r
  | .err e => .err e

/-- Model of CompileContentRangeHeader: unresolved pagination yields the
empty string, a negative limit the open-ended range, otherwise the
inclusive numeric range. -/
def CompileContentRangeHeader (r : Request) (totalCount : String) : GoRes CompileErr String :=
  match getLimitOffset r with
  | .panic m => .panic m
  | .err _ => .ok ""
  | .ok (limit, offset) =>
    if limit < 0 then .ok (intToStr offset ++ "-/" ++ totalCount)
    else .ok (intToStr offset ++ "-" ++ intToStr (offset + limit - 1) ++ "/" ++ totalCount)

/- ---------------------------------------------------------------------
Payload decoding (src/server.go lines 916-995 and 1073-1103).
--------------------------------------------------------------------- -/

/-- The decoded body: the column set (union of keys across rows, a Go
set stored here as a deduplicated list) and the ordered row list
(InputPayloadWithColumns). -/
structure InputPayloadWithColumns where
  Columns : List String
  Payload : List Row

/-- Character allowed in a MIME token (ASCII subset, without the quote
and backquote characters, which no request in scope uses). -/
def isMimeTokenChar (c : Char) : Bool :=
  c.isAlphanum || c = '!' || c = '#' || c = '$' || c = '%' || c = '&' ||
    c = '*' || c = '+' || c = '-' || c = '.' || c = '^' || c = '_' ||
    c = '|' || c = '~'

/-- Model of mime.ParseMediaType restricted to the media type itself:
cut at the first semicolon, trim and lowercase, and require a token or a
token/token form. -/
def parseMediaType (v : String) : Option String :=
  let base :=
    match goSplitN2 v ';' with
    | b :: _ => b
    | [] => v
  let mt := goToLower (goTrimSpace base)
  match splitOnChar '/' mt with
  | [t] => if t ≠ "" ∧ t.data.all isMimeTokenChar then some mt else none
  | [t, sub] =>
    if t ≠ "" ∧ sub ≠ "" ∧ t.data.all isMimeTokenChar ∧ sub.data.all isMimeTokenChar then
      some mt
    else none
  | _ => none

/-- A JSON value accepted as one payload row by json.Unmarshal into a
map: an object, or null (which leaves the Go map nil, that is with no
keys). -/
def jvalAsRow : JVal → Option Row
  | JVal.obj fs => some fs
  | JVal.null => some []
  | _ => none

/-- Union of the keys of all rows, in first-appearance order (the Go
code inserts every key of every row into a set). -/
def payloadColumns (rows : List Row) : List String :=
  (rows.flatMap fun row => row.map Prod.fst).dedup

/-- Model of tryReadInputPayloadAsJSON: peek the first JSON token; an
opening bracket selects array-of-objects decoding, anything else decodes
one object wrapped as a single row.  Any token or decode failure is a
json decode error. -/
def tryReadInputPayloadAsJSON (body : String) : GoRes CompileErr InputPayloadWithColumns :=
  let rows : Option (List Row) :=
    match skipWs body.data with
    | [] => none
    | '[' :: _ =>
      match jsonParseTop body with
      | some (JVal.arr xs) => xs.mapM jvalAsRow
      | _ => none
    | _ =>
      match jsonParseTop body with
      | some v => (jvalAsRow v).map fun row => [row]
      | none => none
  match rows with
  | none => .err .jsonDecode
  | some rs => .ok ⟨payloadColumns rs, rs⟩

/-- Loop body of getInputPayload over the comma-separated content-type
candidates: the first candidate that MIME-parses to application/json and
whose body decodes is returned; every failure, including a JSON decode
failure, just moves on to the next candidate. -/
def inputPayloadFromCandidates (body : String) :
    List String → GoRes CompileErr InputPayloadWithColumns
  | [] => .err .unsupportedMediaType
  | v :: rest =>
    match parseMediaType v with
    | none => inputPayloadFromCandidates body rest
    | some mt =>
      if goToLower mt = "application/json" then
        match tryReadInputPayloadAsJSON body with
        | .ok payload => .ok payload
        | _ => inputPayloadFromCandidates body rest
      else inputPayloadFromCandidates body rest

/-- Model of getInputPayload: a missing content type defaults to
application/octet-stream; when no candidate succeeds the result is the
unsupported-media-type error. -/
def getInputPayload (r : Request) : GoRes CompileErr InputPayloadWithColumns :=
  let contentType := if r.contentType = "" then "application/octet-stream" else r.contentType
  inputPayloadFromCandidates r.body (splitOnChar ',' contentType)

/-- Byte-order comparison of two strings as sort.Strings sees them
(UTF-8 byte order equals code-point order). -/
def strLeChars : List Char → List Char → Bool
  | [], _ => true
  | _ :: _, [] => false
  | a :: as, b :: bs => if a.toNat = b.toNat then strLeChars as bs else decide (a.toNat < b.toNat)

/-- Insertion of a string into an ascending list. -/
def insertSorted (x : String) : List String → List String
  | [] => [x]
  | y :: ys => if strLeChars x.data y.data then x :: y :: ys else y :: insertSorted x ys

/-- Ascending insertion sort: the model of sort.Strings. -/
def sortStrings : List String → List String
  | [] => []
  | x :: xs => insertSorted x (sortStrings xs)

/-- Model of GetSortedColumns: the column set sorted ascending. -/
def InputPayloadWithColumns.GetSortedColumns (p : InputPayloadWithColumns) : List String :=
  sortStrings p.Columns

/-- Model of GetValues: one value tuple per row in row order, binding the
row's value under each column and SQL NULL where the key is missing. -/
def InputPayloadWithColumns.GetValues (p : InputPayloadWithColumns) (columns : List String) :
    List (List JVal) :=
  p.Payload.map fun row =>
    columns.map fun column =>
      match rowLookup row column with
      | some v => v
      | none => JVal.null

/- ---------------------------------------------------------------------
Preference resolution (src/server.go lines 1105-1187).
--------------------------------------------------------------------- -/

/-- Valid count methods (CountMethod.Valid). -/
def validCountMethod (c : String) : Bool :=
  c = "" || c = "exact"

/-- Valid resolution methods (ResolutionMethod.Valid). -/
def validResolutionMethod (rm : String) : Bool :=
  rm = "" || rm = "ignore-duplicates" || rm = "merge-duplicates"

/-- Parsed Prefer header. -/
structure Preference where
  Resolution : String
  Count : String
deriving Repr, DecidableEq

/-- Loop body of ParsePreferenceFromRequest over the comma-separated
parts: recognised keys with invalid values abort with BadRequest,
unrecognised keys and parts without an equals sign are skipped. -/
def parsePreferenceParts (rv : Preference) : List String → GoRes CompileErr Preference
  | [] => .ok rv
  | part :: rest =>
    let p := goTrimSpace part
    if p = "" then parsePreferenceParts rv rest
    else
      match goSplitN2 p '=' with
      | [k, val] =>
        if goToLower k = "count" then
          let countMethod := goToLower val
          if validCountMethod countMethod then
            parsePreferenceParts { rv with Count := countMethod } rest
          else .err (.badRequest ("unsupported count preference: " ++ val))
        else if goToLower k = "resolution" then
          let resolution := goToLower val
          if validResolutionMethod resolution then
            parsePreferenceParts { rv with Resolution := resolution } rest
          else .err (.badRequest ("unsupported resolution preference: " ++ val))
        else parsePreferenceParts rv rest
      | _ => parsePreferenceParts rv rest

/-- Model of ParsePreferenceFromRequest. -/
def ParsePreferenceFromRequest (r : Request) : GoRes CompileErr Preference :=
  if r.preferHeader = "" then .ok ⟨"", ""⟩
  else parsePreferenceParts ⟨"", ""⟩ (splitOnChar ',' r.preferHeader)

/- ---------------------------------------------------------------------
Statement compilation (src/server.go lines 441-701).
--------------------------------------------------------------------- -/

/-- Model of getSelectResultColumns: the select parameter split on
commas, defaulting to a bare star. -/
def getSelectResultColumns (r : Request) : List String :=
  let v := getQueryParameter r "select"
  if v = "" then ["*"] else splitOnChar ',' v

/-- The select statement before pagination: base text, where clause and
order clause, together with the collected bound values.  CompileAsSelect
appends the pagination tail to this text. -/
def selectCore (r : Request) (order : List String) (table : String) :
    GoRes CompileErr (String × List JVal) :=
  let base := "select " ++ String.intercalate ", " (getSelectResultColumns r) ++ " from " ++ table
  (getQueryClauses r order).bind fun pcs =>
    let q1 :=
      if pcs.length > 0 then
        base ++ " where " ++ String.intercalate " and " (pcs.map CompiledQueryParameter.Expr)
      else base
    let vals := pcs.flatMap CompiledQueryParameter.Values
    (getOrderClauses r).bind fun ocs =>
      let q2 := if ocs.length > 0 then q1 ++ " order by " ++ String.intercalate ", " ocs else q1
      .ok (q2, vals)

/-- Model of CompileAsSelect: a limit clause whenever pagination
resolves, an offset clause only for a nonzero offset, no pagination tail
on the errNoLimitOffset sentinel, and any other pagination error is
returned. -/
def CompileAsSelect (r : Request) (order : List String) (table : String) :
    GoRes CompileErr CompiledQuery :=
  (selectCore r order table).bind fun core =>
    match getLimitOffset r with
    | .panic m => .panic m
    | .ok (limit, offset) =>
      let q3 := core.1 ++ " limit " ++ intToStr limit
      if offset ≠ 0 then .ok ⟨q3 ++ " offset " ++ intToStr offset, core.2⟩
      else .ok ⟨q3, core.2⟩
    | .err .noLimitOffset => .ok ⟨core.1, core.2⟩
    | .err (.parseIntError s) => .err (.parseIntError s)

/-- Model of CompileAsExactCount: the count query with the same filter
clauses and no order or pagination. -/
def CompileAsExactCount (r : Request) (order : List String) (table : String) :
    GoRes CompileErr CompiledQuery :=
  let base := "select count(1) from " ++ table
  (getQueryClauses r order).bind fun pcs =>
    let q :=
      if pcs.length > 0 then
        base ++ " where " ++ String.intercalate " and " (pcs.map CompiledQueryParameter.Expr)
      else base
    .ok ⟨q, pcs.flatMap CompiledQueryParameter.Values⟩

/-- The update statement before the where clause: set-placeholders over
the sorted columns and the first row's values (shared text of
CompileAsUpdate and CompileAsUpdateSingleEntry). -/
def updateCore (table : String) (payload : InputPayloadWithColumns) : String × List JVal :=
  let columns := payload.GetSortedColumns
  let updateValues := payload.Payload.headD []
  ("update " ++ table ++ " set " ++
     String.intercalate ", " (columns.map fun column => column ++ " = ?"),
   columns.map fun column => (rowLookup updateValues column).getD JVal.null)

/-- Model of CompileAsUpdate: requires a nonempty column set and exactly
one payload row; filter clauses are optional. -/
def CompileAsUpdate (r : Request) (order : List String) (table : String) :
    GoRes CompileErr CompiledQuery :=
  (getInputPayload r).bind fun payload =>
    if payload.Columns.length < 1 then .err (.badRequest "no columns to insert")
    else if payload.Payload.length < 1 then .err (.badRequest "no data to insert")
    else if payload.Payload.length > 1 then .err (.badRequest "too many data to update")
    else
      let core := updateCore table payload
      (getQueryClauses r order).bind fun pcs =>
        let vals := core.2 ++ pcs.flatMap CompiledQueryParameter.Values
        if pcs.length > 0 then
          .ok ⟨core.1 ++ " where " ++
                String.intercalate " and " (pcs.map CompiledQueryParameter.Expr), vals⟩
        else .ok ⟨core.1, vals⟩

/-- Model of CompileAsUpdateSingleEntry: as CompileAsUpdate but at least
one filter clause is required and the where clause is always appended. -/
def CompileAsUpdateSingleEntry (r : Request) (order : List String) (table : String) :
    GoRes CompileErr CompiledQuery :=
  (getInputPayload r).bind fun payload =>
    if payload.Columns.length < 1 then .err (.badRequest "no columns to insert")
    else if payload.Payload.length < 1 then .err (.badRequest "no data to insert")
    else if payload.Payload.length > 1 then .err (.badRequest "too many data to update")
    else
      let core := updateCore table payload
      (getQueryClauses r order).bind fun pcs =>
        if pcs.length < 1 then .err (.badRequest "expect to specifiy primary key query")
        else
          .ok ⟨core.1 ++ " where " ++
                String.intercalate " and " (pcs.map CompiledQueryParameter.Expr),
               core.2 ++ pcs.flatMap CompiledQueryParameter.Values⟩

/-- The insert statement before any on-conflict tail: column list and one
placeholder group per row (rep is the strings.Repeat("?, ", len-1)
text). -/
def insertBaseQuery (table : String) (columns : List String) (values : List (List JVal))
    (rep : String) : String :=
  "insert into " ++ table ++ " (" ++ String.intercalate ", " columns ++ ") values " ++
    String.intercalate ", " (values.map fun _ => "(" ++ rep ++ "?)")

/-- The on-conflict column clause built from the on_conflict query
parameter: empty without the parameter, otherwise the comma-split columns
in parentheses with a leading space, concatenated as raw identifiers. -/
def onConflictClause (v : String) : String :=
  let onConflictColumns := if v = "" then ([] : List String) else splitOnChar ',' v
  if onConflictColumns.length > 0 then
    " (" ++ String.intercalate ", " onConflictColumns ++ ")"
  else ""

/-- Model of CompileAsInsert: preference parsing, payload checks, the
base insert statement, and an on-conflict tail selected by the resolution
preference. -/
def CompileAsInsert (r : Request) (_order : List String) (table : String) :
    GoRes CompileErr CompiledQuery :=
  (ParsePreferenceFromRequest r).bind fun preference =>
    (getInputPayload r).bind fun payload =>
      if payload.Columns.length < 1 then .err (.badRequest "no columns to insert")
      else if payload.Payload.length < 1 then .err (.badRequest "no data to insert")
      else
        let columns := payload.GetSortedColumns
        let values := payload.GetValues columns
        match goRepeat "?, " ((columns.length : Int) - 1) with
        | none => .panic "strings: negative Repeat count"
        | some rep =>
          let q0 := insertBaseQuery table columns values rep
          let q1 :=
            if preference.Resolution ≠ "" then
              if preference.Resolution = "ignore-duplicates" then
                q0 ++ " on conflict" ++ onConflictClause (getQueryParameter r "on_conflict") ++ " do nothing"
              else if preference.Resolution = "merge-duplicates" then
                q0 ++ " on conflict" ++ onConflictClause (getQueryParameter r "on_conflict") ++ " do update set " ++
                  String.intercalate ", "
                    (columns.map fun column => column ++ " = excluded." ++ column)
              else q0
            else q0
          .ok ⟨q1, values.flatten⟩

/-- Model of CompileAsDelete. -/
def CompileAsDelete (r : Request) (order : List String) (table : String) :
    GoRes CompileErr CompiledQuery :=
  let base := "delete from " ++ table
  (getQueryClauses r order).bind fun pcs =>
    let q :=
      if pcs.length > 0 then
        base ++ " where " ++ String.intercalate " and " (pcs.map CompiledQueryParameter.Expr)
      else base
    .ok ⟨q, pcs.flatMap CompiledQueryParameter.Values⟩

/- ---------------------------------------------------------------------
Projections used by statements about compile results.
--------------------------------------------------------------------- -/

/-- The SQL text of a successful compilation, else the empty string. -/
def compiledQueryText {ε : Type} : GoRes ε CompiledQuery → String
  | .ok q => q.Query
  | _ => ""

/-- The number of bound parameters of a successful compilation. -/
def compiledValueCount {ε : Type} : GoRes ε CompiledQuery → Nat
  | .ok q => q.Values.length
  | _ => 0

/-- The returned error of a computation, when there is one. -/
def resErr {ε α : Type} : GoRes ε α → Option ε
  | .err e => some e
  | _ => none

/-- Whether a computation ended in a Go runtime panic. -/
def isPanic {ε α : Type} : GoRes ε α → Bool
  | .panic _ => true
  | _ => false

/- ---------------------------------------------------------------------
Concrete requests used by the theorems below.
--------------------------------------------------------------------- -/

/-- GET /t?col=abc : a filter whose raw value has no dot separator. -/
def reqFilterNoDot : Request := ⟨[("col", ["abc"])], "", "", "", ""⟩

/-- GET /t?col=in.() : an `in` filter with an empty list. -/
def reqInEmptyList : Request := ⟨[("col", ["in.()"])], "", "", "", ""⟩

/-- GET /t with header Range: 7 (no dash). -/
def reqRangeNoDash : Request := ⟨[], "7", "", "", ""⟩

/-- GET /t?a=eq.1&b=eq.2 : two filter clauses on distinct columns. -/
def reqTwoFilters : Request := ⟨[("a", ["eq.1"]), ("b", ["eq.2"])], "", "", "", ""⟩

/-- GET /t?a=eq.1&select=a : one filter column plus a reserved key. -/
def reqOneFilter : Request := ⟨[("a", ["eq.1"]), ("select", ["a"])], "", "", "", ""⟩

/-- A request carrying the filter col=in.(1,2). -/
def reqInPair : Request := ⟨[("col", ["in.(1,2)"])], "", "", "", ""⟩

/-- PATCH with a json single-object body {"a": 1} and no filters. -/
def reqOneRow : Request := ⟨[], "", "", "application/json", "\x7b\"a\": 1\x7d"⟩

/-- PATCH with the empty json array body (zero payload rows). -/
def reqZeroRows : Request := ⟨[], "", "", "application/json", "[]"⟩

/-- PATCH with a two-row json array body. -/
def reqTwoRows : Request := ⟨[], "", "", "application/json", "[\x7b\"a\":1\x7d,\x7b\"a\":2\x7d]"⟩

/-- POST with Content-Type application/json and a malformed body. -/
def reqBadJson : Request := ⟨[], "", "", "application/json", "\x7b"⟩

/-- POST with a non-json content type and a well-formed body. -/
def reqTextPlain : Request := ⟨[], "", "", "text/plain", "\x7b\"a\": 1\x7d"⟩

/-- POST /t?on_conflict=id with Prefer: resolution=merge-duplicates. -/
def reqInsertMerge : Request :=
  ⟨[("on_conflict", ["id"])], "", "resolution=merge-duplicates", "application/json",
    "\x7b\"id\": 1, \"a\": 2\x7d"⟩

/-- POST with Prefer: resolution=ignore-duplicates and no on_conflict. -/
def reqInsertIgnore : Request :=
  ⟨[], "", "resolution=ignore-duplicates", "application/json", "\x7b\"a\": 2\x7d"⟩

/-- POST with no Prefer header. -/
def reqInsertPlain : Request := ⟨[], "", "", "application/json", "\x7b\"a\": 2\x7d"⟩

/-- The payload decoded from the body [{"a":1},{"b":2}]. -/
def payloadSparse : InputPayloadWithColumns :=
  ⟨["a", "b"], [[("a", JVal.num 1)], [("b", JVal.num 2)]]⟩

/-- GET with header Range: 0-4 (offset zero through the header). -/
def reqRangeZero : Request := ⟨[], "0-4", "", "", ""⟩

/-- GET with ?limit=5&offset=0 (explicit zero offset parameter). -/
def reqOffsetZero : Request := ⟨[("limit", ["5"]), ("offset", ["0"])], "", "", "", ""⟩

/-- GET with header Range: 3-5. -/
def reqRange35 : Request := ⟨[], "3-5", "", "", ""⟩

/-- GET with header Range: 7- and limit/offset parameters that the
header must override. -/
def reqRangeOpen : Request := ⟨[("limit", ["9"]), ("offset", ["2"])], "7-", "", "", ""⟩

/- ---------------------------------------------------------------------
Theorems.
--------------------------------------------------------------------- -/

/-- C1: the spec promises that every compile operation returns a
compiled query or a typed error and never crashes; the code breaks this
promise.  A filter value without a dot separator, an `in` filter with an
empty list, and a Range header without a dash each drive the compiler
into a Go runtime panic (ps[1] on a one-element split result twice, and
strings.Repeat with count -1). -/
theorem C1_compile_panics_on_malformed_inputs :
    CompileAsSelect reqFilterNoDot ["col"] "t" = .panic "runtime error: index out of range" ∧
    CompileAsDelete reqFilterNoDot ["col"] "t" = .panic "runtime error: index out of range" ∧
    CompileAsSelect reqInEmptyList ["col"] "t" = .panic "strings: negative Repeat count" ∧
    CompileAsSelect reqRangeNoDash [] "t" = .panic "runtime error: index out of range" ∧
    CompileContentRangeHeader reqRangeNoDash "*" = .panic "runtime error: index out of range" ∧
    getQueryClausesByInput "col" "abc" = .panic "runtime error: index out of range" ∧
    mapAsInQuery "col" "in" "()" = .panic "strings: negative Repeat count" ∧
    getLimitOffsetFromHeader "7" = .panic "runtime error: index out of range" :=
  ⟨rfl, rfl, rfl, rfl, rfl, rfl, rfl, rfl⟩

/-- C6: col=in.(1,2,3) compiles to one clause with three placeholders
bound to 1, 2, 3 in order, and col=in.(1,2, fails with a json decode
error after the paren-strip-and-wrap rewrite. -/
theorem C6_in_list_placeholders_and_decode_error :
    getQueryClausesByInput "col" "in.(1,2,3)" =
      .ok [⟨"col IN (?,?,?)", [JVal.num 1, JVal.num 2, JVal.num 3]⟩] ∧
    getQueryClausesByInput "col" "in.(1,2," = .err .jsonDecode :=
  ⟨rfl, rfl⟩

/-- C5: pagination resolution.  Range 3-5 resolves to limit 3, offset 3;
Range 7- resolves to limit -1, offset 7 and renders the open-ended
content range "7-" followed by a slash and the total; a successfully
parsed Range header always overrides the limit/offset query parameters;
a resolved nonnegative limit renders offset dash offset+limit-1 slash
total; unresolved pagination renders the empty string. -/
theorem C5_pagination_resolution_and_content_range :
    getLimitOffsetFromHeader "3-5" = .ok (3, 3) ∧
    getLimitOffsetFromHeader "7-" = .ok (-1, 7) ∧
    getLimitOffset reqRange35 = .ok (3, 3) ∧
    getLimitOffset reqRangeOpen = .ok (-1, 7) ∧
    (∀ (r : Request) (lo : Int × Int),
      getLimitOffsetFromHeader r.rangeHeader = .ok lo → getLimitOffset r = .ok lo) ∧
    (∀ (r : Request) (totalCount : String),
      r.rangeHeader = "7-" →
      CompileContentRangeHeader r totalCount = .ok ("7-/" ++ totalCount)) ∧
    (∀ (r : Request) (totalCount : String) (l o : Int),
      getLimitOffset r = .ok (l, o) → 0 ≤ l →
      CompileContentRangeHeader r totalCount =
        .ok (intToStr o ++ "-" ++ intToStr (o + l - 1) ++ "/" ++ totalCount)) ∧
    (∀ (r : Request) (totalCount : String) (e : LoErr),
      getLimitOffset r = .err e → CompileContentRangeHeader r totalCount = .ok "") := by
  refine ⟨rfl, rfl, rfl, rfl, ?_, ?_, ?_, ?_⟩
  · intro r lo h
    simp only [getLimitOffset, h]
  · intro r totalCount h
    have hlo : getLimitOffset r = .ok (-1, 7) := by
      simp only [getLimitOffset, h]
      rfl
    simp only [CompileContentRangeHeader, hlo]
    rfl
  · intro r totalCount l o h hl
    simp only [CompileContentRangeHeader, h]
    rw [if_neg (by omega)]
  · intro r totalCount e h
    simp only [CompileContentRangeHeader, h]

/-- Closed instance of C5's conditional parts: the open-ended range at
Range: 7-, the numeric range at limit=9, offset=2, and the empty string
when nothing resolves. -/
theorem C5_pagination_witness :
    CompileContentRangeHeader reqRangeOpen "*" = .ok "7-/*" ∧
    CompileContentRangeHeader ⟨[("limit", ["9"]), ("offset", ["2"])], "", "", "", ""⟩ "100" =
      .ok "2-10/100" ∧
    CompileContentRangeHeader ⟨[], "", "", "", ""⟩ "*" = .ok "" := by
  refine ⟨C5_pagination_resolution_and_content_range.2.2.2.2.2.1 reqRangeOpen "*" rfl, ?_, ?_⟩
  · exact C5_pagination_resolution_and_content_range.2.2.2.2.2.2.1 _ "100" 9 2 rfl (by omega)
  · exact C5_pagination_resolution_and_content_range.2.2.2.2.2.2.2 _ "*" .noLimitOffset rfl

/-- Dropping the reserved keys first does not change the collected
clauses: non-column keys contribute nothing to getQueryClauses. -/
theorem getQueryClauses_filterColumns (r : Request) (o : List String) :
    getQueryClauses r o = getQueryClauses r (o.filter fun k => isColumnName k) := by
  induction o with
  | nil => rfl
  | cons k rest ih =>
    by_cases hk : isColumnName k
    · simp only [getQueryClauses, hk, if_true, List.filter_cons_of_pos hk, ih]
    · simp only [getQueryClauses, hk, if_false, Bool.false_eq_true,
        List.filter_cons_of_neg (by simpa using hk), ih]

/-- A permutation of a list with at most one element is that list. -/
theorem perm_of_length_le_one {α : Type} {l1 l2 : List α}
    (h : l1.Perm l2) (hl : l2.length ≤ 1) : l1 = l2 := by
  match l2, hl with
  | [], _ => exact h.eq_nil
  | [a], _ => exact List.perm_singleton.mp h

/-- C2 (counterexample): compiling the identical request in two runs is
not byte-identical once two distinct filter columns are present.  The
request a=eq.1, b=eq.2 holds one query-parameter map; the two
enumeration orders below are both permutations of its keys, as the Go
runtime may produce on two runs, yet the compiled SQL texts differ. -/
theorem C2_clause_order_differs_between_runs :
    List.Perm ["a", "b"] (keyOrder reqTwoFilters) ∧
    List.Perm ["b", "a"] (keyOrder reqTwoFilters) ∧
    compiledQueryText (CompileAsSelect reqTwoFilters ["a", "b"] "t") =
      "select * from t where a = ? and b = ?" ∧
    compiledQueryText (CompileAsSelect reqTwoFilters ["b", "a"] "t") =
      "select * from t where b = ? and a = ?" ∧
    compiledQueryText (CompileAsSelect reqTwoFilters ["a", "b"] "t") ≠
      compiledQueryText (CompileAsSelect reqTwoFilters ["b", "a"] "t") := by
  refine ⟨by decide, by decide, rfl, rfl, by decide⟩

/-- C2 (amended): compiling the same request descriptor twice is
byte-identical whenever at most one query-parameter key is a filterable
column; with two or more distinct filter columns the clause order follows
the map enumeration order of the run.  Here both enumeration orders are
permutations of the request's parameter keys. -/
theorem C2_select_idempotent_with_at_most_one_filter_column
    (r : Request) (o1 o2 : List String) (table : String)
    (h1 : o1.Perm (keyOrder r)) (h2 : o2.Perm (keyOrder r))
    (hone : ((keyOrder r).filter fun k => isColumnName k).length ≤ 1) :
    CompileAsSelect r o1 table = CompileAsSelect r o2 table := by
  have e1 : o1.filter (fun k => isColumnName k) = (keyOrder r).filter fun k => isColumnName k :=
    perm_of_length_le_one (h1.filter _) ((List.Perm.length_eq (h1.filter _)).symm ▸ hone)
  have e2 : o2.filter (fun k => isColumnName k) = (keyOrder r).filter fun k => isColumnName k :=
    perm_of_length_le_one (h2.filter _) ((List.Perm.length_eq (h2.filter _)).symm ▸ hone)
  have hq : getQueryClauses r o1 = getQueryClauses r o2 := by
    rw [getQueryClauses_filterColumns r o1, getQueryClauses_filterColumns r o2, e1, e2]
  simp only [CompileAsSelect, selectCore, hq]

/-- Closed instance of the amended C2: with the single filter column a
(select is a reserved key) the two enumeration orders compile
identically. -/
theorem C2_select_idempotence_witness :
    List.Perm ["a", "select"] (keyOrder reqOneFilter) ∧
    List.Perm ["select", "a"] (keyOrder reqOneFilter) ∧
    CompileAsSelect reqOneFilter ["a", "select"] "t" =
      CompileAsSelect reqOneFilter ["select", "a"] "t" :=
  ⟨by decide, by decide,
    C2_select_idempotent_with_at_most_one_filter_column reqOneFilter _ _ "t"
      (by decide) (by decide) (by decide)⟩

/-- Raw filter text that splits into a nonempty operator and value is
dispatched through the operator registry. -/
theorem getQueryClausesByInput_split (column s op v : String)
    (f : String → String → String → GoRes CompileErr (List CompiledQueryParameter))
    (hsplit : goSplitN2 s '.' = [op, v]) (hop : op ≠ "") (hv : v ≠ "")
    (hf : queryOpereators op = some f) :
    getQueryClausesByInput column s = f column op v := by
  have hs : s ≠ "" := by
    intro h
    rw [h] at hsplit
    simp [goSplitN2, breakAtChar] at hsplit
  simp only [getQueryClausesByInput, if_neg hs, hsplit]
  rw [if_neg (by simp [hop, hv]), hf]

/-- C3 (counterexample): the claim promises one bound parameter equal
verbatim to the raw value for every supported operator, but the `in`
operator binds one parameter per decoded list element: col=in.(1,2)
compiles to two bound parameters, not one string parameter. -/
theorem C3_in_operator_binds_two_parameters :
    getQueryClausesByInput "col" "in.(1,2)" =
      .ok [⟨"col IN (?,?)", [JVal.num 1, JVal.num 2]⟩] ∧
    compiledValueCount (CompileAsSelect reqInPair ["col"] "t") = 2 ∧
    (2 : Nat) ≠ 1 :=
  ⟨rfl, rfl, by decide⟩

/-- C3 (amended): for every raw filter col=op.v with nonempty v, the
eight relational and pattern operators compile to exactly one clause
whose text is the column, the mapped SQL operator and one placeholder
(independent of v) and whose single bound parameter is v verbatim; `is`
binds the single mapped SQL literal for null, true and false; `in` binds
the JSON-decoded list elements in order behind one placeholder per
element. -/
theorem C3_operator_clause_shapes (column s op v : String)
    (hsplit : goSplitN2 s '.' = [op, v]) (hv : v ≠ "") :
    ((op = "eq" →
        getQueryClausesByInput column s = .ok [⟨column ++ " " ++ "=" ++ " ?", [JVal.str v]⟩]) ∧
     (op = "neq" →
        getQueryClausesByInput column s = .ok [⟨column ++ " " ++ "!=" ++ " ?", [JVal.str v]⟩]) ∧
     (op = "gt" →
        getQueryClausesByInput column s = .ok [⟨column ++ " " ++ ">" ++ " ?", [JVal.str v]⟩]) ∧
     (op = "ge" →
        getQueryClausesByInput column s = .ok [⟨column ++ " " ++ ">=" ++ " ?", [JVal.str v]⟩]) ∧
     (op = "lt" →
        getQueryClausesByInput column s = .ok [⟨column ++ " " ++ "<" ++ " ?", [JVal.str v]⟩]) ∧
     (op = "le" →
        getQueryClausesByInput column s = .ok [⟨column ++ " " ++ "<=" ++ " ?", [JVal.str v]⟩]) ∧
     (op = "like" →
        getQueryClausesByInput column s = .ok [⟨column ++ " " ++ "LIKE" ++ " ?", [JVal.str v]⟩]) ∧
     (op = "ilike" →
        getQueryClausesByInput column s = .ok [⟨column ++ " " ++ "ILIKE" ++ " ?", [JVal.str v]⟩])) ∧
    (op = "is" →
       (goToLower v = "null" →
          getQueryClausesByInput column s = .ok [⟨column ++ " IS ?", [JVal.null]⟩]) ∧
       (goToLower v = "false" →
          getQueryClausesByInput column s = .ok [⟨column ++ " IS ?", [JVal.bool false]⟩]) ∧
       (goToLower v = "true" →
          getQueryClausesByInput column s = .ok [⟨column ++ " IS ?", [JVal.bool true]⟩])) ∧
    (op = "in" → ∀ ps : List JVal,
       jsonUnmarshalArr ("[" ++ goTrimSuf (goTrimPre v "(") ")" ++ "]") = some ps →
       ps ≠ [] →
       getQueryClausesByInput column s =
         .ok [⟨column ++ " IN (" ++ String.join (List.replicate (ps.length - 1) "?,") ++
                 "?" ++ ")", ps⟩]) := by
  refine ⟨⟨?_, ?_, ?_, ?_, ?_, ?_, ?_, ?_⟩, ?_, ?_⟩
  case _ => intro h; subst h
            rw [getQueryClausesByInput_split column s "eq" v _ hsplit (by decide) hv rfl]; rfl
  case _ => intro h; subst h
            rw [getQueryClausesByInput_split column s "neq" v _ hsplit (by decide) hv rfl]; rfl
  case _ => intro h; subst h
            rw [getQueryClausesByInput_split column s "gt" v _ hsplit (by decide) hv rfl]; rfl
  case _ => intro h; subst h
            rw [getQueryClausesByInput_split column s "ge" v _ hsplit (by decide) hv rfl]; rfl
  case _ => intro h; subst h
            rw [getQueryClausesByInput_split column s "lt" v _ hsplit (by decide) hv rfl]; rfl
  case _ => intro h; subst h
            rw [getQueryClausesByInput_split column s "le" v _ hsplit (by decide) hv rfl]; rfl
  case _ => intro h; subst h
            rw [getQueryClausesByInput_split column s "like" v _ hsplit (by decide) hv rfl]; rfl
  case _ => intro h; subst h
            rw [getQueryClausesByInput_split column s "ilike" v _ hsplit (by decide) hv rfl]; rfl
  case _ =>
    intro h; subst h
    rw [getQueryClausesByInput_split column s "is" v _ hsplit (by decide) hv rfl]
    refine ⟨fun hnull => ?_, fun hfalse => ?_, fun htrue => ?_⟩
    · simp [mapAsIsQuery, hnull]
    · simp [mapAsIsQuery, hfalse]
    · simp [mapAsIsQuery, htrue]
  case _ =>
    intro h; subst h
    intro ps hps hne
    rw [getQueryClausesByInput_split column s "in" v _ hsplit (by decide) hv rfl]
    simp only [mapAsInQuery, hps]
    have hlen : 0 < ps.length := List.length_pos.mpr hne
    have hrep : goRepeat "?," ((ps.length : Int) - 1) =
        some (String.join (List.replicate (ps.length - 1) "?,")) := by
      unfold goRepeat
      rw [if_neg (by omega)]
      have htn : ((ps.length : Int) - 1).toNat = ps.length - 1 := by omega
      rw [htn]
    rw [hrep]

/-- Closed instance of the amended C3: eq binds its value verbatim, `in`
binds the decoded elements. -/
theorem C3_operator_clause_shapes_witness :
    getQueryClausesByInput "c" "eq.5" = .ok [⟨"c" ++ " " ++ "=" ++ " ?", [JVal.str "5"]⟩] ∧
    getQueryClausesByInput "c" "in.(1,2)" =
      .ok [⟨"c" ++ " IN (" ++ String.join (List.replicate 1 "?,") ++ "?" ++ ")",
            [JVal.num 1, JVal.num 2]⟩] :=
  ⟨(C3_operator_clause_shapes "c" "eq.5" "eq" "5" rfl (by decide)).1.1 rfl,
   (C3_operator_clause_shapes "c" "in.(1,2)" "in" "(1,2)" rfl (by decide)).2.2 rfl
     [JVal.num 1, JVal.num 2] rfl (List.cons_ne_nil _ _)⟩

/-- C4: update requests with zero payload rows or more than one payload
row fail with a BadRequest error; a valid single-row payload without any
filter clause makes CompileAsUpdateSingleEntry fail with BadRequest while
CompileAsUpdate succeeds on the same request. -/
theorem C4_update_cardinality_and_filter_requirement
    (r : Request) (o : List String) (t : String) (p : InputPayloadWithColumns)
    (hp : getInputPayload r = .ok p) :
    (p.Payload.length = 0 → ∃ hint, CompileAsUpdate r o t = .err (.badRequest hint)) ∧
    (1 < p.Payload.length → ∃ hint, CompileAsUpdate r o t = .err (.badRequest hint)) ∧
    (p.Payload.length = 1 → p.Columns ≠ [] → getQueryClauses r o = .ok [] →
       CompileAsUpdateSingleEntry r o t =
         .err (.badRequest "expect to specifiy primary key query") ∧
       ∃ q, CompileAsUpdate r o t = .ok q) := by
  refine ⟨?_, ?_, ?_⟩
  · intro h0
    by_cases hc : p.Columns.length < 1
    · exact ⟨"no columns to insert", by
        simp only [CompileAsUpdate, hp, GoRes.bind]
        rw [if_pos hc]⟩
    · exact ⟨"no data to insert", by
        simp only [CompileAsUpdate, hp, GoRes.bind]
        rw [if_neg hc, if_pos (by omega)]⟩
  · intro h1
    by_cases hc : p.Columns.length < 1
    · exact ⟨"no columns to insert", by
        simp only [CompileAsUpdate, hp, GoRes.bind]
        rw [if_pos hc]⟩
    · exact ⟨"too many data to update", by
        simp only [CompileAsUpdate, hp, GoRes.bind]
        rw [if_neg hc, if_neg (by omega), if_pos (by omega)]⟩
  · intro h1 hcol hq
    have hc : ¬ p.Columns.length < 1 := by
      cases hl : p.Columns with
      | nil => exact absurd hl hcol
      | cons a l => simp
    constructor
    · simp only [CompileAsUpdateSingleEntry, hp, GoRes.bind]
      rw [if_neg hc, if_neg (by omega), if_neg (by omega), hq]
      rfl
    · have hok : CompileAsUpdate r o t =
          .ok ⟨(updateCore t p).1,
               (updateCore t p).2 ++
                 ([] : List CompiledQueryParameter).flatMap CompiledQueryParameter.Values⟩ := by
        simp only [CompileAsUpdate, hp, GoRes.bind]
        rw [if_neg hc, if_neg (by omega), if_neg (by omega), hq]
        rfl
      exact ⟨_, hok⟩

/-- Closed instance of C4 at three concrete requests: the empty json
array body, a two-row body, and a single-row body without filters. -/
theorem C4_update_cardinality_witness :
    (∃ hint, CompileAsUpdate reqZeroRows [] "t" = .err (.badRequest hint)) ∧
    (∃ hint, CompileAsUpdate reqTwoRows [] "t" = .err (.badRequest hint)) ∧
    (CompileAsUpdateSingleEntry reqOneRow [] "t" =
       .err (.badRequest "expect to specifiy primary key query") ∧
     ∃ q, CompileAsUpdate reqOneRow [] "t" = .ok q) :=
  ⟨(C4_update_cardinality_and_filter_requirement reqZeroRows [] "t" ⟨[], []⟩ rfl).1 rfl,
   (C4_update_cardinality_and_filter_requirement reqTwoRows [] "t"
      ⟨["a"], [[("a", JVal.num 1)], [("a", JVal.num 2)]]⟩ rfl).2.1 (by decide),
   (C4_update_cardinality_and_filter_requirement reqOneRow [] "t"
      ⟨["a"], [[("a", JVal.num 1)]]⟩ rfl).2.2 rfl (by decide) rfl⟩

/-- When the single content-type candidate is application/json and the
body fails to decode, the candidate loop falls through and reports an
unsupported media type: the decode error is swallowed. -/
theorem inputPayloadFromCandidates_json_err (body : String) (e : CompileErr)
    (h : tryReadInputPayloadAsJSON body = .err e) :
    inputPayloadFromCandidates body ["application/json"] = .err .unsupportedMediaType := by
  simp only [inputPayloadFromCandidates]
  rw [h]
  rfl

/-- C7 (counterexample): a request with Content-Type application/json
and the malformed body "{" does not fail with a json decode error as the
claim states; getInputPayload and the compile operations report
UnsupportedMediaType instead. -/
theorem C7_malformed_json_counterexample :
    getInputPayload reqBadJson = .err .unsupportedMediaType ∧
    resErr (getInputPayload reqBadJson) ≠ some CompileErr.jsonDecode ∧
    resErr (CompileAsInsert reqBadJson [] "t") = some CompileErr.unsupportedMediaType :=
  ⟨rfl, by decide, rfl⟩

/-- C7 (amended): an insert or update request whose Content-Type is
application/json but whose body fails JSON decoding fails with
UnsupportedMediaType (the decode error is swallowed by the content-type
candidate loop), the same error a non-JSON Content-Type produces. -/
theorem C7_media_type_error_paths (r : Request) (o : List String) (t : String) :
    (r.contentType = "application/json" →
       ∀ e : CompileErr, tryReadInputPayloadAsJSON r.body = .err e →
       getInputPayload r = .err .unsupportedMediaType ∧
       CompileAsUpdate r o t = .err .unsupportedMediaType ∧
       (r.preferHeader = "" → CompileAsInsert r o t = .err .unsupportedMediaType)) ∧
    (r.contentType = "text/plain" → getInputPayload r = .err .unsupportedMediaType) := by
  constructor
  · intro hct e htry
    have hpay : getInputPayload r = .err .unsupportedMediaType := by
      simp only [getInputPayload, hct]
      rw [if_neg (by decide),
          show splitOnChar ',' "application/json" = ["application/json"] from rfl]
      exact inputPayloadFromCandidates_json_err r.body e htry
    refine ⟨hpay, ?_, ?_⟩
    · simp only [CompileAsUpdate, hpay]
      rfl
    · intro hpref
      have hok : ParsePreferenceFromRequest r = .ok ⟨"", ""⟩ := by
        simp only [ParsePreferenceFromRequest, hpref]
        rfl
      simp only [CompileAsInsert, hok, GoRes.bind, hpay]
  · intro hct
    simp only [getInputPayload, hct]
    rfl

/-- Closed instance of the amended C7 at the malformed body "{" and at a
text/plain request. -/
theorem C7_media_type_error_paths_witness :
    (getInputPayload reqBadJson = .err .unsupportedMediaType ∧
     CompileAsUpdate reqBadJson [] "t" = .err .unsupportedMediaType ∧
     CompileAsInsert reqBadJson [] "t" = .err .unsupportedMediaType) ∧
    getInputPayload reqTextPlain = .err .unsupportedMediaType := by
  have h := (C7_media_type_error_paths reqBadJson [] "t").1 rfl .jsonDecode rfl
  exact ⟨⟨h.1, h.2.1, h.2.2 rfl⟩, (C7_media_type_error_paths reqTextPlain [] "t").2 rfl⟩

/-- The byte-order comparison as a relation, for the sorting lemmas. -/
def strLe (a b : String) : Prop := strLeChars a.data b.data = true

instance : DecidableRel strLe := fun a b => by
  unfold strLe
  infer_instance

/-- The byte-order comparison is total. -/
theorem strLeChars_total : ∀ (a b : List Char),
    strLeChars a b = true ∨ strLeChars b a = true
  | [], _ => Or.inl rfl
  | _ :: _, [] => Or.inr rfl
  | x :: xs, y :: ys => by
    by_cases h : x.toNat = y.toNat
    · rcases strLeChars_total xs ys with h1 | h1
      · left
        simp [strLeChars, h, h1]
      · right
        simp [strLeChars, h.symm, h1]
    · by_cases hlt : x.toNat < y.toNat
      · left
        simp [strLeChars, h, hlt]
      · right
        have h2 : ¬ y.toNat = x.toNat := fun hh => h hh.symm
        have h3 : y.toNat < x.toNat := by omega
        simp [strLeChars, h2, h3]

/-- The byte-order comparison is transitive. -/
theorem strLeChars_trans : ∀ (a b c : List Char),
    strLeChars a b = true → strLeChars b c = true → strLeChars a c = true
  | [], _, _, _, _ => rfl
  | _ :: _, [], _, hab, _ => by simp [strLeChars] at hab
  | _ :: _, _ :: _, [], _, hbc => by simp [strLeChars] at hbc
  | x :: xs, y :: ys, z :: zs, hab, hbc => by
    simp only [strLeChars] at hab hbc ⊢
    by_cases hxy : x.toNat = y.toNat
    · rw [if_pos hxy] at hab
      by_cases hyz : y.toNat = z.toNat
      · rw [if_pos hyz] at hbc
        rw [if_pos (by omega)]
        exact strLeChars_trans xs ys zs hab hbc
      · rw [if_neg hyz] at hbc
        have hy : y.toNat < z.toNat := of_decide_eq_true hbc
        rw [if_neg (by omega)]
        exact decide_eq_true (by omega)
    · rw [if_neg hxy] at hab
      have hx : x.toNat < y.toNat := of_decide_eq_true hab
      by_cases hyz : y.toNat = z.toNat
      · rw [if_neg (by omega)]
        exact decide_eq_true (by omega)
      · rw [if_neg hyz] at hbc
        have hy : y.toNat < z.toNat := of_decide_eq_true hbc
        rw [if_neg (by omega)]
        exact decide_eq_true (by omega)

instance : IsTotal String strLe := ⟨fun a b => strLeChars_total a.data b.data⟩

instance : IsTrans String strLe := ⟨fun a b c => strLeChars_trans a.data b.data c.data⟩

/-- The model's ordered insertion is Mathlib's ordered insertion under
the byte-order relation. -/
theorem insertSorted_eq_orderedInsert (x : String) (l : List String) :
    insertSorted x l = List.orderedInsert strLe x l := by
  induction l with
  | nil => rfl
  | cons y ys ih =>
    by_cases h : strLeChars x.data y.data = true
    · simp [insertSorted, List.orderedInsert, strLe, h]
    · simp [insertSorted, List.orderedInsert, strLe, h, ih]

/-- The model's sort is Mathlib's insertion sort under the byte-order
relation. -/
theorem sortStrings_eq_insertionSort (l : List String) :
    sortStrings l = List.insertionSort strLe l := by
  induction l with
  | nil => rfl
  | cons x xs ih => simp [sortStrings, List.insertionSort, insertSorted_eq_orderedInsert, ih]

/-- sortStrings returns an ascending list. -/
theorem sortStrings_sorted (l : List String) : List.Sorted strLe (sortStrings l) := by
  rw [sortStrings_eq_insertionSort]
  exact List.sorted_insertionSort strLe l

/-- sortStrings returns a permutation of its input. -/
theorem sortStrings_perm (l : List String) : (sortStrings l).Perm l := by
  rw [sortStrings_eq_insertionSort]
  exact List.perm_insertionSort strLe l

/-- C9: the exposed column list of a decoded payload is the key union
sorted ascending (lexicographic byte order), the value tuples bind NULL
at missing keys in preserved row order, and the concrete payload
[{"a":1},{"b":2}] yields columns [a, b] with tuples
[[1, null], [null, 2]]. -/
theorem C9_sorted_columns_and_null_binding :
    getInputPayload ⟨[], "", "", "application/json", "[\x7b\"a\":1\x7d,\x7b\"b\":2\x7d]"⟩ =
      .ok payloadSparse ∧
    payloadSparse.GetSortedColumns = ["a", "b"] ∧
    payloadSparse.GetValues ["a", "b"] =
      [[JVal.num 1, JVal.null], [JVal.null, JVal.num 2]] ∧
    (∀ p : InputPayloadWithColumns, List.Sorted strLe p.GetSortedColumns) ∧
    (∀ (p : InputPayloadWithColumns) (c : String),
       c ∈ p.GetSortedColumns ↔ c ∈ p.Columns) ∧
    (∀ (p : InputPayloadWithColumns) (columns : List String),
       p.GetValues columns =
         p.Payload.map fun row => columns.map fun c => (rowLookup row c).getD JVal.null) := by
  refine ⟨rfl, rfl, rfl, ?_, ?_, ?_⟩
  · intro p
    exact sortStrings_sorted p.Columns
  · intro p c
    exact (sortStrings_perm p.Columns).mem_iff
  · intro p columns
    unfold InputPayloadWithColumns.GetValues
    refine congrArg (fun f => List.map f p.Payload) ?_
    funext row
    refine congrArg (fun f => List.map f columns) ?_
    funext c
    cases rowLookup row c <;> rfl

/-- C8: on an insert whose payload decoded with nonempty columns and
rows, resolution merge-duplicates with on_conflict=id appends the
on-conflict do-update-set tail with one excluded assignment per sorted
column; resolution ignore-duplicates without on_conflict appends
on conflict do nothing; without a resolution preference no on-conflict
tail is appended. -/
theorem C8_insert_on_conflict_suffixes
    (r : Request) (o : List String) (t : String) (p : InputPayloadWithColumns) (cnt : String)
    (hpay : getInputPayload r = .ok p) (hc : p.Columns ≠ []) (hr : p.Payload ≠ []) :
    (ParsePreferenceFromRequest r = .ok ⟨"merge-duplicates", cnt⟩ →
       getQueryParameter r "on_conflict" = "id" →
       CompileAsInsert r o t =
         .ok ⟨insertBaseQuery t p.GetSortedColumns (p.GetValues p.GetSortedColumns)
                (String.join (List.replicate (p.GetSortedColumns.length - 1) "?, ")) ++
                " on conflict" ++ " (id)" ++ " do update set " ++
                String.intercalate ", "
                  (p.GetSortedColumns.map fun c => c ++ " = excluded." ++ c),
              (p.GetValues p.GetSortedColumns).flatten⟩) ∧
    (ParsePreferenceFromRequest r = .ok ⟨"ignore-duplicates", cnt⟩ →
       getQueryParameter r "on_conflict" = "" →
       CompileAsInsert r o t =
         .ok ⟨insertBaseQuery t p.GetSortedColumns (p.GetValues p.GetSortedColumns)
                (String.join (List.replicate (p.GetSortedColumns.length - 1) "?, ")) ++
                " on conflict" ++ " do nothing",
              (p.GetValues p.GetSortedColumns).flatten⟩) ∧
    (ParsePreferenceFromRequest r = .ok ⟨"", cnt⟩ →
       CompileAsInsert r o t =
         .ok ⟨insertBaseQuery t p.GetSortedColumns (p.GetValues p.GetSortedColumns)
                (String.join (List.replicate (p.GetSortedColumns.length - 1) "?, ")),
              (p.GetValues p.GetSortedColumns).flatten⟩) := by
  have hclen : ¬ p.Columns.length < 1 := by
    cases hl : p.Columns with
    | nil => exact absurd hl hc
    | cons a l2 => simp
  have hplen : ¬ p.Payload.length < 1 := by
    cases hl : p.Payload with
    | nil => exact absurd hl hr
    | cons a l2 => simp
  have hslen : p.GetSortedColumns.length = p.Columns.length := by
    unfold InputPayloadWithColumns.GetSortedColumns
    exact (sortStrings_perm p.Columns).length_eq
  have hrep : goRepeat "?, " ((p.GetSortedColumns.length : Int) - 1) =
      some (String.join (List.replicate (p.GetSortedColumns.length - 1) "?, ")) := by
    unfold goRepeat
    rw [if_neg (by omega)]
    have htn : ((p.GetSortedColumns.length : Int) - 1).toNat =
        p.GetSortedColumns.length - 1 := by omega
    rw [htn]
  refine ⟨?_, ?_, ?_⟩
  · intro hpref hconf
    simp only [CompileAsInsert, hpref, hpay, GoRes.bind]
    rw [if_neg hclen, if_neg hplen, hrep, hconf]
    rfl
  · intro hpref hconf
    simp only [CompileAsInsert, hpref, hpay, GoRes.bind]
    rw [if_neg hclen, if_neg hplen, hrep, hconf]
    simp only [show onConflictClause "" = "" from rfl, String.append_empty]
    rfl
  · intro hpref
    simp only [CompileAsInsert, hpref, hpay, GoRes.bind]
    rw [if_neg hclen, if_neg hplen, hrep]
    rfl

/-- Closed instance of C8 at the three concrete insert requests. -/
theorem C8_insert_on_conflict_witness :
    compiledQueryText (CompileAsInsert reqInsertMerge [] "t") =
      "insert into t (a, id) values (?, ?) on conflict (id) do update set a = excluded.a, id = excluded.id" ∧
    compiledQueryText (CompileAsInsert reqInsertIgnore [] "t") =
      "insert into t (a) values (?) on conflict do nothing" ∧
    compiledQueryText (CompileAsInsert reqInsertPlain [] "t") =
      "insert into t (a) values (?)" := by
  have hm := (C8_insert_on_conflict_suffixes reqInsertMerge [] "t"
      ⟨["id", "a"], [[("id", JVal.num 1), ("a", JVal.num 2)]]⟩ "" rfl (by decide)
      (by simp)).1 rfl rfl
  have hi := (C8_insert_on_conflict_suffixes reqInsertIgnore [] "t"
      ⟨["a"], [[("a", JVal.num 2)]]⟩ "" rfl (by decide) (by simp)).2.1 rfl rfl
  have hn := (C8_insert_on_conflict_suffixes reqInsertPlain [] "t"
      ⟨["a"], [[("a", JVal.num 2)]]⟩ "" rfl (by decide) (by simp)).2.2 rfl
  exact ⟨by rw [hm]; rfl, by rw [hi]; rfl, by rw [hn]; rfl⟩

/-- C10: whenever pagination resolves, the select statement appends a
limit clause, and an offset clause only when the resolved offset is
nonzero: at offset zero the statement is the pre-pagination text followed
only by the limit clause. -/
theorem C10_offset_clause_only_when_nonzero
    (r : Request) (o : List String) (t : String) (l off : Int) (core : String × List JVal)
    (hcore : selectCore r o t = .ok core) (hlo : getLimitOffset r = .ok (l, off)) :
    (off = 0 → CompileAsSelect r o t = .ok ⟨core.1 ++ " limit " ++ intToStr l, core.2⟩) ∧
    (off ≠ 0 → CompileAsSelect r o t =
       .ok ⟨core.1 ++ " limit " ++ intToStr l ++ " offset " ++ intToStr off, core.2⟩) := by
  constructor
  · intro h0
    simp only [CompileAsSelect, hcore, GoRes.bind, hlo]
    rw [if_neg (by simp [h0])]
  · intro hne
    simp only [CompileAsSelect, hcore, GoRes.bind, hlo]
    rw [if_pos hne]

/-- Closed instance of C10: Range 0-4 and the explicit offset=0
parameter emit only a limit clause; Range 3-5 emits limit and offset. -/
theorem C10_offset_clause_witness :
    CompileAsSelect reqRangeZero [] "t" =
      .ok ⟨"select * from t" ++ " limit " ++ intToStr 5, []⟩ ∧
    CompileAsSelect reqOffsetZero ["limit", "offset"] "t" =
      .ok ⟨"select * from t" ++ " limit " ++ intToStr 5, []⟩ ∧
    CompileAsSelect reqRange35 [] "t" =
      .ok ⟨"select * from t" ++ " limit " ++ intToStr 3 ++ " offset " ++ intToStr 3, []⟩ :=
  ⟨(C10_offset_clause_only_when_nonzero reqRangeZero [] "t" 5 0 ("select * from t", [])
      rfl rfl).1 rfl,
   (C10_offset_clause_only_when_nonzero reqOffsetZero ["limit", "offset"] "t" 5 0
      ("select * from t", []) rfl rfl).1 rfl,
   (C10_offset_clause_only_when_nonzero reqRange35 [] "t" 3 3 ("select * from t", [])
      rfl rfl).2 (by decide)⟩
